import Mathlib

/-!
Verification development for the waveshift media extraction services.

The repository contains three small Rust services built around an external
media tool (FFmpeg):

* `waveshift-audio-segment-worker/audio-segment-container/src/main.rs` —
  cuts one or several millisecond time windows out of an audio payload,
  inserting a synthesized silence gap between consecutive windows.
* `waveshift-ffmpeg-worker/separate-container/src/main.rs` — splits one
  input container into an audio-only and a video-only output with two
  parallel tool invocations joined by `tokio::try_join!`.
* `ffmpeg-worker/separate-container/src/main.rs` — the sequential variant
  of the same separation service.

The definitions below are a shallow embedding of that code: Rust `i32`
values become `Int` (no arithmetic here ever approaches the `i32` bounds),
`f64` second values computed as `ms as f64 / 1000.0` are embedded as exact
rationals (the claims under verification tolerate 1 ms of error, far above
the `f64` rounding error of these divisions), panicking `Vec` indexing is
embedded as `Option`-returning lookup (`none` models the panic), and the
results of external-tool invocations are passed in as explicit data.
-/

namespace Waveshift

/-- Result of one external-tool invocation, as inspected by the code:
`result.status.success()` and `result.stderr`. -/
structure CmdResult where
  success : Bool
  stderr : String
deriving DecidableEq, Repr

/-- A declared output file of an invocation, as inspected by the code:
whether the path exists (`fs::metadata` / `Path::exists`) and its content
(whose length models `metadata.len()`). -/
structure OutFile where
  present : Bool
  data : String
deriving DecidableEq, Repr

/-! ### Audio-segment worker: time-range extraction
Embedding of `execute_ffmpeg_for_ranges` and the validation part of
`process_audio` from
`waveshift-audio-segment-worker/audio-segment-container/src/main.rs`. -/

/-- Rendering of a rational number of seconds with three decimal places,
expressed as an exact count of milliseconds: Rust's format specifier
of width 3 after the decimal point prints the value rounded to the nearest
thousandth, i.e. it prints exactly `milli3 q` thousandths. -/
def milli3 (q : ℚ) : ℤ := round (q * 1000)

/-- Extraction of `(range[0], range[1])` from one decoded range
(lines 129-130 and 159-160 of the audio-segment worker). Rust `Vec`
indexing panics when out of bounds; the panic is modelled by `none`. -/
def rangePair (r : List ℤ) : Option (ℤ × ℤ) := do
  let s ← r[0]?
  let e ← r[1]?
  pure (s, e)

/-- Per-range trim parameters `(start_sec, duration_sec)` with
`start_sec = start_ms / 1000` and `duration_sec = (end_ms - start_ms) / 1000`
(lines 131-132 and 161-162). -/
def rangeInput (r : List ℤ) : Option (ℚ × ℚ) := do
  let (s, e) ← rangePair r
  pure (((s : ℚ) / 1000, ((e - s : ℤ) : ℚ) / 1000))

/-- The loop of lines 158-172: one trimmed input per decoded range, in
request order; a panic while processing any range aborts the whole
function. -/
def rangeInputs : List (List ℤ) → Option (List (ℚ × ℚ))
  | [] => some []
  | r :: rs => do
    let p ← rangeInput r
    let ps ← rangeInputs rs
    pure (p :: ps)

/-- The processing plan chosen by `execute_ffmpeg_for_ranges`: a single
stream-copy cut (lines 128-151) or a multi-input concatenation with a
silence gap (lines 153-206). -/
inductive Plan where
  | singleCut (startSec durationSec : ℚ)
  | multiConcat (inputs : List (ℚ × ℚ)) (gapSec : ℚ)
deriving DecidableEq, Repr

/-- Whether a plan is the single-cut variant. -/
def Plan.isSingleCut : Plan → Bool
  | .singleCut _ _ => true
  | .multiConcat _ _ => false

/-- Whether a plan is the multi-segment concatenation variant. -/
def Plan.isMultiConcat : Plan → Bool
  | .singleCut _ _ => false
  | .multiConcat _ _ => true

/-- The branch of `execute_ffmpeg_for_ranges` on `time_ranges.len() == 1`
(line 127): the single-range fast path when the list has exactly one
element, the multi-segment path otherwise. `none` models the panic from
out-of-bounds indexing inside the chosen branch. -/
def buildPlan (ranges : List (List ℤ)) (gapMs : ℤ) : Option Plan :=
  match ranges with
  | [r] => (rangeInput r).map fun p => Plan.singleCut p.1 p.2
  | rs => (rangeInputs rs).map fun inputs =>
      Plan.multiConcat inputs ((gapMs : ℚ) / 1000)

/-- One element of the concatenation sequence `concat_parts` built at
lines 179-185: either the labelled audio of input `i` or the shared
silence gap. -/
inductive ConcatPart where
  | seg (i : ℕ)
  | gap
deriving DecidableEq, Repr

/-- Whether a concatenation element is a segment label. -/
def ConcatPart.isSeg : ConcatPart → Bool
  | .seg _ => true
  | .gap => false

/-- Whether a concatenation element is the gap label. -/
def ConcatPart.isGap : ConcatPart → Bool
  | .seg _ => false
  | .gap => true

/-- The stream label a concatenation element contributes to the
filter-graph string: input `i` renders as its audio-stream label,
the gap as the label of the silence source. -/
def ConcatPart.render : ConcatPart → String
  | .seg i => "[" ++ toString i ++ ":a]"
  | .gap => "[gap]"

/-- The loop of lines 179-185: for each `i` in `0..n` push the segment
label, and after every segment except the last push the gap label. -/
def concatParts (n : ℕ) : List ConcatPart :=
  (List.range n).flatMap fun i =>
    ConcatPart.seg i :: (if i < n - 1 then [ConcatPart.gap] else [])

/-- The `n=` argument of the `concat` filter (line 191):
`concat_parts.len()`. -/
def concatN (n : ℕ) : ℕ := (concatParts n).length

/-- The synthesized silence source of line 176, by parameter: the format
string fixes `channel_layout=mono` and `sample_rate=44100`, and renders
`gap_duration_ms as f64 / 1000.0` with three decimal places as the
duration. -/
structure AnullsrcSpec where
  channelLayout : String
  sampleRate : ℕ
  durationMilli : ℤ
deriving DecidableEq, Repr

/-- The silence-generator parameters as a function of the request's
`gap_duration_ms` (line 175-176). -/
def gapSpec (gapMs : ℤ) : AnullsrcSpec :=
  { channelLayout := "mono"
    sampleRate := 44100
    durationMilli := milli3 ((gapMs : ℚ) / 1000) }

/-- Zero-padded three-digit rendering of a number below 1000. -/
def pad3 (k : ℕ) : String :=
  if k < 10 then "00" ++ toString k
  else if k < 100 then "0" ++ toString k
  else toString k

/-- Decimal rendering of an exact count of milliseconds as seconds with
three decimal places, the textual form Rust's three-decimal format
produces for these values. -/
def fmt3 (m : ℤ) : String :=
  (if m < 0 then "-" else "") ++
    toString (m.natAbs / 1000) ++ "." ++ pad3 (m.natAbs % 1000)

/-- The silence-generator fragment of the filter string (line 176). -/
def AnullsrcSpec.render (a : AnullsrcSpec) : String :=
  "anullsrc=channel_layout=" ++ a.channelLayout ++
    ":sample_rate=" ++ toString a.sampleRate ++
    ":duration=" ++ fmt3 a.durationMilli

/-- The complete `filter_complex` string of lines 187-192: the silence
source labelled `gap`, the interleaved concatenation sequence, and the
`concat` filter whose element count is `concat_parts.len()`. -/
def filterComplex (gapMs : ℤ) (n : ℕ) : String :=
  (gapSpec gapMs).render ++ "[gap];" ++
    String.join ((concatParts n).map ConcatPart.render) ++
    "concat=n=" ++ toString (concatN n) ++ ":v=0:a=1[out]"

/-- The output-normalization arguments appended on both paths
(lines 143-146 and 200-203): resample to 16 kHz, downmix to mono,
16-bit linear PCM, WAV container. -/
def outputNormalizeArgs : List String :=
  ["-ar", "16000", "-ac", "1", "-c:a", "pcm_s16le", "-f", "wav"]

/-- Outcome of the validation part of `process_audio` (lines 74-91),
up to the point where `execute_ffmpeg_for_ranges` builds its plan:
the decode result of the `X-Time-Ranges` header is passed in as an
`Option`. -/
inductive Outcome where
  | parseError (msg : String)
  | clientError (status : ℕ) (msg : String)
  | invoke (plan : Plan)
  | panic
deriving DecidableEq, Repr

/-- The request pipeline of `process_audio`: decode the ranges header
(line 74, failure propagates as an error), reject an empty body with a
400 response (lines 81-86), then call `execute_ffmpeg_for_ranges`
(line 91), whose argument construction either panics or fixes a plan. -/
def processAudio (decoded : Option (List (List ℤ))) (bodyLen : ℕ)
    (gapMs : ℤ) : Outcome :=
  match decoded with
  | none => Outcome.parseError "Invalid time ranges format"
  | some ranges =>
    if bodyLen = 0 then Outcome.clientError 400 "No audio data received"
    else
      match buildPlan ranges gapMs with
      | none => Outcome.panic
      | some p => Outcome.invoke p

/-- The checks after the tool invocation returns (lines 210-225): a
failure status is fatal with the tool's stderr, a missing output path
makes `fs::metadata` fail, and an existing but empty output is rejected
before the data is read. -/
def finishFfmpeg (res : CmdResult) (out : OutFile) : Except String String :=
  if res.success = false then
    Except.error ("FFmpeg failed: " ++ res.stderr)
  else if out.present = false then
    Except.error "output metadata unavailable"
  else if out.data.length = 0 then
    Except.error "FFmpeg produced empty output file"
  else
    Except.ok out.data

/-! ### Stream-separation workers
Embedding of `separate_media` from
`waveshift-ffmpeg-worker/separate-container/src/main.rs` (parallel
variant, `tokio::try_join!`) and from
`ffmpeg-worker/separate-container/src/main.rs` (sequential variant). -/

/-- The two external-tool invocations a separation request can perform:
audio extraction (`-vn -c:a copy`) and video extraction
(`-an -c:v copy`). -/
inductive SepStep where
  | audioExtract
  | videoExtract
deriving DecidableEq, Repr

/-- The fixed multipart boundary token of the separation responses
(line 108 of the parallel variant, line 111 of the sequential one). -/
def boundary : String := "----formdata-boundary-1234567890"

/-- The sequence of chunks appended to `response_body` by the
`extend_from_slice` calls of lines 112-126 of the parallel variant
(identically lines 115-129 of the sequential one): audio part first,
video part second, then the terminal boundary. -/
def multipartChunks (audioData videoData : String) : List String :=
  [ "--" ++ boundary ++ "\r\n",
    "Content-Disposition: form-data; name=\"audio\"; filename=\"audio.aac\"\r\n",
    "Content-Type: audio/aac\r\n\r\n",
    audioData,
    "\r\n",
    "--" ++ boundary ++ "\r\n",
    "Content-Disposition: form-data; name=\"video\"; filename=\"video.mp4\"\r\n",
    "Content-Type: video/mp4\r\n\r\n",
    videoData,
    "\r\n",
    "--" ++ boundary ++ "--\r\n" ]

/-- The assembled multipart response body. -/
def multipartBody (audioData videoData : String) : String :=
  String.join (multipartChunks audioData videoData)

/-- The parallel `separate_media` (waveshift-ffmpeg-worker), from the
point where both invocations have been launched: the body bytes are
written to the input temp file but never inspected, both invocations
always run (`tokio::try_join!` on the two futures, lines 47-68), then
the failure checks of lines 71-82 and the existence checks of
lines 89-94 run in order; note there is no emptiness check on the
output files. The first component records which invocations ran. -/
def separateMedia (body : String) (audioRes videoRes : CmdResult)
    (audioOut videoOut : OutFile) :
    List SepStep × Except String String :=
  let _ := body
  ([SepStep.audioExtract, SepStep.videoExtract],
    if audioRes.success = false then
      Except.error ("音频分离失败: " ++ audioRes.stderr)
    else if videoRes.success = false then
      Except.error ("视频分离失败: " ++ videoRes.stderr)
    else if audioOut.present = false then
      Except.error "音频输出文件不存在"
    else if videoOut.present = false then
      Except.error "视频输出文件不存在"
    else
      Except.ok (multipartBody audioOut.data videoOut.data))

/-- The sequential `separate_media` (ffmpeg-worker): audio extraction
runs first and its failure returns before video extraction is launched
(lines 45-63); then video extraction and its check (lines 68-86), the
existence checks (lines 92-97), and the same multipart assembly. -/
def separateMediaSeq (body : String) (audioRes videoRes : CmdResult)
    (audioOut videoOut : OutFile) :
    List SepStep × Except String String :=
  let _ := body
  if audioRes.success = false then
    ([SepStep.audioExtract],
      Except.error ("音频分离失败: " ++ audioRes.stderr))
  else if videoRes.success = false then
    ([SepStep.audioExtract, SepStep.videoExtract],
      Except.error ("视频分离失败: " ++ videoRes.stderr))
  else if audioOut.present = false then
    ([SepStep.audioExtract, SepStep.videoExtract],
      Except.error "音频输出文件不存在")
  else if videoOut.present = false then
    ([SepStep.audioExtract, SepStep.videoExtract],
      Except.error "视频输出文件不存在")
  else
    ([SepStep.audioExtract, SepStep.videoExtract],
      Except.ok (multipartBody audioOut.data videoOut.data))

/-! ### Spec-side multipart shape
Definitions written from the spec's words (section 4.4, Artifact
Assembler), to be compared with `multipartChunks`: a part is opened by
the boundary, carries a name, a suggested filename and a content type,
and is terminated by a line break before the next boundary; the whole
body is closed by a terminal boundary. -/

/-- One named multipart part, as the spec describes it. -/
def mkPartChunks (b name filename contentType data : String) :
    List String :=
  [ "--" ++ b ++ "\r\n",
    "Content-Disposition: form-data; name=\"" ++ name ++
      "\"; filename=\"" ++ filename ++ "\"\r\n",
    "Content-Type: " ++ contentType ++ "\r\n\r\n",
    data,
    "\r\n" ]

/-- The terminal boundary closing the whole multipart body. -/
def closeBoundary (b : String) : List String :=
  ["--" ++ b ++ "--\r\n"]

/-! ### Helper lemmas -/

/-- Rendering an exact number of milliseconds divided by 1000 with three
decimal places loses nothing: the printed value is the original
millisecond count. -/
theorem milli3_intCast (a : ℤ) : milli3 ((a : ℚ) / 1000) = a := by
  unfold milli3
  rw [div_mul_cancel₀ _ (by norm_num : (1000 : ℚ) ≠ 0)]
  exact round_intCast a

theorem rangePair_cons_cons (s e : ℤ) (t : List ℤ) :
    rangePair (s :: e :: t) = some (s, e) := by
  simp [rangePair]

theorem rangeInput_cons_cons (s e : ℤ) (t : List ℤ) :
    rangeInput (s :: e :: t) =
      some ((s : ℚ) / 1000, ((e - s : ℤ) : ℚ) / 1000) := by
  simp [rangeInput, rangePair]

theorem rangePair_eq_none (r : List ℤ) :
    rangePair r = none ↔ r.length < 2 := by
  match r with
  | [] => simp [rangePair]
  | [s] => simp [rangePair]
  | s :: e :: t => simp [rangePair_cons_cons]

theorem rangeInput_eq_none (r : List ℤ) :
    rangeInput r = none ↔ r.length < 2 := by
  rw [← rangePair_eq_none]
  unfold rangeInput
  cases h : rangePair r with
  | none => simp [h]
  | some p => simp [h]

theorem rangeInputs_eq_none (rs : List (List ℤ)) :
    rangeInputs rs = none ↔ ∃ r ∈ rs, r.length < 2 := by
  induction rs with
  | nil => simp [rangeInputs]
  | cons r t ih =>
    rw [show rangeInputs (r :: t) =
        (rangeInput r).bind (fun p =>
          (rangeInputs t).bind (fun ps => some (p :: ps))) from rfl]
    cases hr : rangeInput r with
    | none =>
      simp only [Option.none_bind]
      simp [List.mem_cons, (rangeInput_eq_none r).mp hr]
    | some p =>
      cases ht : rangeInputs t with
      | none =>
        simp only [Option.some_bind, Option.none_bind]
        have hex := (ih).mp ht
        simp only [List.mem_cons, true_iff]
        obtain ⟨x, hx, hlen⟩ := hex
        exact ⟨x, Or.inr hx, hlen⟩
      | some ps =>
        simp only [Option.some_bind, Option.bind_some]
        constructor
        · intro h; cases h
        · rintro ⟨x, hx, hlen⟩
          rcases List.mem_cons.mp hx with rfl | hx
          · rw [(rangeInput_eq_none x).mpr hlen] at hr; cases hr
          · rw [(ih).mpr ⟨x, hx, hlen⟩] at ht; cases ht

/-- Proof helper: the concatenation sequence in which every segment,
the last included, is followed by the gap label. -/
def allPairs (n : ℕ) : List ConcatPart :=
  (List.range n).flatMap fun i => [ConcatPart.seg i, ConcatPart.gap]

theorem flatMap_congr_mem {α β : Type} (l : List α) (f g : α → List β)
    (h : ∀ x ∈ l, f x = g x) : l.flatMap f = l.flatMap g := by
  induction l with
  | nil => rfl
  | cons x xs ih =>
    rw [List.flatMap_cons, List.flatMap_cons, h x (List.mem_cons_self x xs),
      ih (fun y hy => h y (List.mem_cons_of_mem x hy))]

theorem allPairs_succ (n : ℕ) :
    allPairs (n + 1) = allPairs n ++ [ConcatPart.seg n, ConcatPart.gap] := by
  unfold allPairs
  rw [List.range_succ, List.flatMap_append, List.flatMap_cons,
    List.flatMap_nil]
  simp

theorem concatParts_succ (n : ℕ) :
    concatParts (n + 1) = allPairs n ++ [ConcatPart.seg n] := by
  unfold concatParts allPairs
  rw [List.range_succ, List.flatMap_append, List.flatMap_cons,
    List.flatMap_nil]
  congr 1
  · apply flatMap_congr_mem
    intro x hx
    have hx' : x < n := List.mem_range.mp hx
    rw [if_pos (by omega : x < n + 1 - 1)]
  · rw [if_neg (by omega : ¬n < n + 1 - 1)]
    simp

theorem countP_isSeg_allPairs (n : ℕ) :
    (allPairs n).countP ConcatPart.isSeg = n := by
  induction n with
  | zero => rfl
  | succ k ih =>
    rw [allPairs_succ, List.countP_append, ih]
    simp [List.countP_cons, List.countP_nil, ConcatPart.isSeg]

theorem countP_isGap_allPairs (n : ℕ) :
    (allPairs n).countP ConcatPart.isGap = n := by
  induction n with
  | zero => rfl
  | succ k ih =>
    rw [allPairs_succ, List.countP_append, ih]
    simp [List.countP_cons, List.countP_nil, ConcatPart.isGap,
      ConcatPart.isSeg]

theorem length_allPairs (n : ℕ) : (allPairs n).length = 2 * n := by
  induction n with
  | zero => rfl
  | succ k ih =>
    rw [allPairs_succ, List.length_append, ih]
    simp only [List.length_cons, List.length_nil]
    omega

theorem head?_allPairs (n : ℕ) :
    (allPairs (n + 1)).head? = some (ConcatPart.seg 0) := by
  induction n with
  | zero => rfl
  | succ k ih =>
    rw [allPairs_succ, List.head?_append, ih]
    rfl

theorem intersperse_middle {α : Type} (sep x a : α) (l : List α) :
    List.intersperse sep ((x :: l) ++ [a]) =
      List.intersperse sep (x :: l) ++ [sep, a] := by
  induction l generalizing x with
  | nil => rfl
  | cons y t ih =>
    simp only [List.cons_append]
    rw [show List.intersperse sep (x :: y :: (t ++ [a])) =
        x :: sep :: List.intersperse sep (y :: (t ++ [a])) from by
      simp [List.intersperse]]
    rw [show List.intersperse sep (x :: y :: t) =
        x :: sep :: List.intersperse sep (y :: t) from by
      simp [List.intersperse]]
    rw [show (y : α) :: (t ++ [a]) = (y :: t) ++ [a] from rfl]
    rw [ih y]
    rfl

theorem intersperse_eq_allPairs (n : ℕ) :
    List.intersperse ConcatPart.gap
        ((List.range (n + 1)).map ConcatPart.seg) =
      allPairs n ++ [ConcatPart.seg n] := by
  induction n with
  | zero => decide
  | succ k ih =>
    have hsplit : (List.range (k + 2)).map ConcatPart.seg =
        ((List.range (k + 1)).map ConcatPart.seg) ++
          [ConcatPart.seg (k + 1)] := by
      rw [List.range_succ, List.map_append]
      rfl
    have hcons : (List.range (k + 1)).map ConcatPart.seg =
        ConcatPart.seg 0 ::
          (List.map Nat.succ (List.range k)).map ConcatPart.seg := by
      rw [List.range_succ_eq_map]
      rfl
    rw [hsplit, hcons, intersperse_middle, ← hcons, ih, allPairs_succ]
    simp [List.append_assoc]

/-! ### Claims about the audio-segment worker -/

/-- C1: for any number of ranges at least 2, the concatenation sequence
built by the multi-range path is exactly the segments of inputs
`0 .. n-1` in request order with the gap label interleaved strictly
between consecutive segments — `n` segment labels, `n - 1` gap labels,
no leading or trailing gap — and the `concat` filter's element count is
`n + (n - 1)`. -/
theorem claim1_concat_sequence (n : ℕ) (hn : 2 ≤ n) :
    concatParts n =
      List.intersperse ConcatPart.gap
        ((List.range n).map ConcatPart.seg) ∧
    (concatParts n).countP ConcatPart.isSeg = n ∧
    (concatParts n).countP ConcatPart.isGap = n - 1 ∧
    (concatParts n).head? = some (ConcatPart.seg 0) ∧
    (concatParts n).getLast? = some (ConcatPart.seg (n - 1)) ∧
    concatN n = n + (n - 1) := by
  obtain ⟨m, rfl⟩ : ∃ m, n = m + 2 := ⟨n - 2, by omega⟩
  have key : concatParts (m + 2) =
      allPairs (m + 1) ++ [ConcatPart.seg (m + 1)] :=
    concatParts_succ (m + 1)
  refine ⟨?_, ?_, ?_, ?_, ?_, ?_⟩
  · rw [key, intersperse_eq_allPairs]
  · rw [key, List.countP_append, countP_isSeg_allPairs]
    simp [List.countP_cons, List.countP_nil, ConcatPart.isSeg]
  · rw [key, List.countP_append, countP_isGap_allPairs]
    simp [List.countP_cons, List.countP_nil, ConcatPart.isGap]
  · rw [key, List.head?_append, head?_allPairs]
    rfl
  · rw [key, List.getLast?_concat]
    rfl
  · rw [show concatN (m + 2) = (concatParts (m + 2)).length from rfl, key,
      List.length_append, length_allPairs]
    simp only [List.length_cons, List.length_nil]
    omega

/-- Witness for C1 at three ranges. -/
theorem claim1_concat_sequence_witness :
    2 ≤ 3 ∧
    (concatParts 3 =
        List.intersperse ConcatPart.gap
          ((List.range 3).map ConcatPart.seg) ∧
      (concatParts 3).countP ConcatPart.isSeg = 3 ∧
      (concatParts 3).countP ConcatPart.isGap = 3 - 1 ∧
      (concatParts 3).head? = some (ConcatPart.seg 0) ∧
      (concatParts 3).getLast? = some (ConcatPart.seg (3 - 1)) ∧
      concatN 3 = 3 + (3 - 1)) :=
  ⟨by decide, claim1_concat_sequence 3 (by decide)⟩

/-- C2: the processing-plan variant is a pure function of the number of
ranges — the single-cut path is taken exactly when the list of ranges
has length 1, the multi-segment concatenation path exactly when its
length is greater than 1, and never both. -/
theorem claim2_variant_choice (ranges : List (List ℤ)) (gapMs : ℤ)
    (p : Plan) (hne : 1 ≤ ranges.length)
    (hp : buildPlan ranges gapMs = some p) :
    (p.isSingleCut = true ↔ ranges.length = 1) ∧
    (p.isMultiConcat = true ↔ 1 < ranges.length) ∧
    ¬(p.isSingleCut = true ∧ p.isMultiConcat = true) := by
  match ranges, hne, hp with
  | [r], _, hp =>
    cases h : rangeInput r with
    | none => rw [show buildPlan [r] gapMs = (rangeInput r).map
        (fun p => Plan.singleCut p.1 p.2) from rfl, h] at hp; cases hp
    | some q =>
      rw [show buildPlan [r] gapMs = (rangeInput r).map
        (fun p => Plan.singleCut p.1 p.2) from rfl, h] at hp
      cases hp
      refine ⟨by simp [Plan.isSingleCut], by simp [Plan.isMultiConcat], ?_⟩
      simp [Plan.isSingleCut, Plan.isMultiConcat]
  | r₁ :: r₂ :: rs, _, hp =>
    cases h : rangeInputs (r₁ :: r₂ :: rs) with
    | none =>
      rw [show buildPlan (r₁ :: r₂ :: rs) gapMs =
        (rangeInputs (r₁ :: r₂ :: rs)).map (fun inputs =>
          Plan.multiConcat inputs ((gapMs : ℚ) / 1000)) from rfl, h] at hp
      cases hp
    | some inputs =>
      rw [show buildPlan (r₁ :: r₂ :: rs) gapMs =
        (rangeInputs (r₁ :: r₂ :: rs)).map (fun inputs =>
          Plan.multiConcat inputs ((gapMs : ℚ) / 1000)) from rfl, h] at hp
      cases hp
      refine ⟨by simp [Plan.isSingleCut], by simp [Plan.isMultiConcat], ?_⟩
      simp [Plan.isSingleCut, Plan.isMultiConcat]

/-- Witness for C2: one single-range request and the instantiated
conclusion. -/
theorem claim2_variant_choice_witness :
    1 ≤ ([[0, 2000]] : List (List ℤ)).length ∧
    buildPlan [[0, 2000]] 500 =
      some (Plan.singleCut (((0 : ℤ) : ℚ) / 1000)
        ((((2000 : ℤ) - 0 : ℤ) : ℚ) / 1000)) ∧
    (((Plan.singleCut (((0 : ℤ) : ℚ) / 1000)
          ((((2000 : ℤ) - 0 : ℤ) : ℚ) / 1000)).isSingleCut = true ↔
        ([[0, 2000]] : List (List ℤ)).length = 1) ∧
      ((Plan.singleCut (((0 : ℤ) : ℚ) / 1000)
          ((((2000 : ℤ) - 0 : ℤ) : ℚ) / 1000)).isMultiConcat = true ↔
        1 < ([[0, 2000]] : List (List ℤ)).length) ∧
      ¬((Plan.singleCut (((0 : ℤ) : ℚ) / 1000)
            ((((2000 : ℤ) - 0 : ℤ) : ℚ) / 1000)).isSingleCut = true ∧
        (Plan.singleCut (((0 : ℤ) : ℚ) / 1000)
            ((((2000 : ℤ) - 0 : ℤ) : ℚ) / 1000)).isMultiConcat = true)) :=
  ⟨by decide,
    by rw [show buildPlan [[0, 2000]] 500 =
        (rangeInput [0, 2000]).map (fun p => Plan.singleCut p.1 p.2)
        from rfl, rangeInput_cons_cons]; rfl,
    claim2_variant_choice [[0, 2000]] 500
      (Plan.singleCut (((0 : ℤ) : ℚ) / 1000)
        ((((2000 : ℤ) - 0 : ℤ) : ℚ) / 1000))
      (by decide)
      (by rw [show buildPlan [[0, 2000]] 500 =
          (rangeInput [0, 2000]).map (fun p => Plan.singleCut p.1 p.2)
          from rfl, rangeInput_cons_cons]; rfl)⟩

/-- C3 counterexample: the pair `[5, 5]` has `end_ms = start_ms`, yet
with a non-empty body the request passes validation and reaches the
external-tool invocation with a zero duration — no `MalformedInput`
("non-positive duration") error is ever produced. -/
theorem claim3_counterexample :
    processAudio (some [[5, 5]]) 1 500 =
      Outcome.invoke (Plan.singleCut (5 / 1000 : ℚ) 0) := by
  simp only [processAudio]
  rw [if_neg (by omega : ¬(1 : ℕ) = 0)]
  rw [show buildPlan [[5, 5]] 500 =
    (rangeInput [5, 5]).map (fun p => Plan.singleCut p.1 p.2) from rfl]
  rw [rangeInput_cons_cons]
  norm_num

/-- C3 amended: request validation performs no `end_ms > start_ms`
check; any single pair with `end_ms ≤ start_ms` passes validation and
the external tool is invoked with a non-positive duration argument. -/
theorem claim3_amended_no_duration_check (s e gapMs : ℤ) (bodyLen : ℕ)
    (hbody : 0 < bodyLen) (hle : e ≤ s) :
    processAudio (some [[s, e]]) bodyLen gapMs =
      Outcome.invoke
        (Plan.singleCut ((s : ℚ) / 1000) (((e - s : ℤ) : ℚ) / 1000)) ∧
    ((e - s : ℤ) : ℚ) / 1000 ≤ 0 := by
  constructor
  · simp only [processAudio]
    rw [if_neg (by omega : ¬bodyLen = 0)]
    rw [show buildPlan [[s, e]] gapMs =
      (rangeInput [s, e]).map (fun p => Plan.singleCut p.1 p.2) from rfl]
    rw [rangeInput_cons_cons]
    rfl
  · apply div_nonpos_of_nonpos_of_nonneg
    · have h : (e - s : ℤ) ≤ 0 := by omega
      exact_mod_cast h
    · norm_num

/-- Witness for the amended C3 at the concrete input `[[5, 5]]`. -/
theorem claim3_amended_witness :
    (0 < 1 ∧ (5 : ℤ) ≤ 5) ∧
    (processAudio (some [[5, 5]]) 1 500 =
        Outcome.invoke
          (Plan.singleCut ((5 : ℚ) / 1000) (((5 - 5 : ℤ) : ℚ) / 1000)) ∧
      ((5 - 5 : ℤ) : ℚ) / 1000 ≤ 0) :=
  ⟨⟨by decide, by decide⟩,
    claim3_amended_no_duration_check 5 5 500 1 (by decide) (by decide)⟩

/-- C5 counterexample: the synthesized silence source is generated at a
fixed sample rate of 44100 Hz, which is not the 16 kHz target the
output is normalized to (`-ar 16000`). -/
theorem claim5_counterexample :
    (gapSpec 500).sampleRate = 44100 ∧
    ¬(gapSpec 500).sampleRate = 16000 ∧
    outputNormalizeArgs[0]? = some "-ar" ∧
    outputNormalizeArgs[1]? = some "16000" := by decide

/-- C5 amended: the silence-generator input has duration exactly
`gap_duration_ms / 1000` seconds and a mono channel layout, but its
sample rate is the fixed value 44100, different from the 16 kHz mono
16-bit PCM the output arguments normalize to; the final resampling
stage reconciles the mismatch. -/
theorem claim5_amended_gap_source (gapMs : ℤ) :
    gapSpec gapMs =
      { channelLayout := "mono", sampleRate := 44100,
        durationMilli := gapMs } ∧
    outputNormalizeArgs =
      ["-ar", "16000", "-ac", "1", "-c:a", "pcm_s16le", "-f", "wav"] := by
  refine ⟨?_, rfl⟩
  unfold gapSpec
  rw [milli3_intCast]

/-- C8: for a single range with positive duration the computed start
time is `start_ms / 1000` seconds and the computed duration is
`(end_ms - start_ms) / 1000` seconds, and the three-decimal rendering
used in the tool arguments reproduces both values exactly (so well
within the 1 ms tolerance). -/
theorem claim8_single_range_seconds (s e gapMs : ℤ) (h : s < e) :
    buildPlan [[s, e]] gapMs =
      some (Plan.singleCut ((s : ℚ) / 1000) (((e - s : ℤ) : ℚ) / 1000)) ∧
    milli3 ((s : ℚ) / 1000) = s ∧
    milli3 (((e - s : ℤ) : ℚ) / 1000) = e - s := by
  refine ⟨?_, milli3_intCast s, milli3_intCast (e - s)⟩
  rw [show buildPlan [[s, e]] gapMs =
    (rangeInput [s, e]).map (fun p => Plan.singleCut p.1 p.2) from rfl]
  rw [rangeInput_cons_cons]
  rfl

/-- Witness for C8 at the range `[1000, 3000]`. -/
theorem claim8_single_range_seconds_witness :
    (1000 : ℤ) < 3000 ∧
    (buildPlan [[1000, 3000]] 500 =
        some (Plan.singleCut ((1000 : ℚ) / 1000)
          (((3000 - 1000 : ℤ) : ℚ) / 1000)) ∧
      milli3 ((1000 : ℚ) / 1000) = 1000 ∧
      milli3 (((3000 - 1000 : ℤ) : ℚ) / 1000) = 3000 - 1000) :=
  ⟨by decide, claim8_single_range_seconds 1000 3000 500 (by decide)⟩

/-- C10: the segment-extraction function is total exactly under the
precondition that every decoded range has at least two elements; a
range list containing a shorter pair (such as `[]` or `[5]`) makes the
indexing of the pair's first or second element go out of bounds, which
panics (modelled by `none`) instead of returning an error. -/
theorem claim10_short_pair_panics (ranges : List (List ℤ)) (gapMs : ℤ) :
    buildPlan ranges gapMs = none ↔ ∃ r ∈ ranges, r.length < 2 := by
  match ranges with
  | [r] =>
    rw [show buildPlan [r] gapMs = (rangeInput r).map
      (fun p => Plan.singleCut p.1 p.2) from rfl]
    rw [Option.map_eq_none', rangeInput_eq_none]
    simp
  | [] =>
    rw [show buildPlan [] gapMs = (rangeInputs []).map
      (fun inputs => Plan.multiConcat inputs ((gapMs : ℚ) / 1000))
      from rfl]
    simp [rangeInputs]
  | r₁ :: r₂ :: rs =>
    rw [show buildPlan (r₁ :: r₂ :: rs) gapMs =
      (rangeInputs (r₁ :: r₂ :: rs)).map
        (fun inputs => Plan.multiConcat inputs ((gapMs : ℚ) / 1000))
      from rfl]
    rw [Option.map_eq_none']
    exact rangeInputs_eq_none _

/-! ### Claims about the stream-separation workers -/

/-- C4: in both separation variants, the response is only built when
both the audio-extraction and the video-extraction invocation
succeeded, and if video extraction fails while audio extraction
succeeds the whole request fails with the video error — no audio-only
partial artifact is returned. -/
theorem claim4_join_all_or_nothing (body : String) (aRes vRes : CmdResult)
    (aOut vOut : OutFile) :
    ((separateMedia body aRes vRes aOut vOut).2.isOk = true →
      aRes.success = true ∧ vRes.success = true) ∧
    (aRes.success = true → vRes.success = false →
      (separateMedia body aRes vRes aOut vOut).2 =
        Except.error ("视频分离失败: " ++ vRes.stderr)) ∧
    ((separateMediaSeq body aRes vRes aOut vOut).2.isOk = true →
      aRes.success = true ∧ vRes.success = true) ∧
    (aRes.success = true → vRes.success = false →
      (separateMediaSeq body aRes vRes aOut vOut).2 =
        Except.error ("视频分离失败: " ++ vRes.stderr)) := by
  obtain ⟨as, ast⟩ := aRes
  obtain ⟨vs, vst⟩ := vRes
  obtain ⟨ap, ad⟩ := aOut
  obtain ⟨vp, vd⟩ := vOut
  cases as <;> cases vs <;> cases ap <;> cases vp <;>
    simp [separateMedia, separateMediaSeq, Except.isOk, Except.toBool]

/-- Witness for C4: video failure with audio success fails both
variants with the video diagnostic. -/
theorem claim4_join_all_or_nothing_witness :
    (separateMedia "x" ⟨true, ""⟩ ⟨false, "boom"⟩ ⟨true, "a"⟩
        ⟨true, "v"⟩).2 =
      Except.error ("视频分离失败: " ++ "boom") ∧
    (separateMediaSeq "x" ⟨true, ""⟩ ⟨false, "boom"⟩ ⟨true, "a"⟩
        ⟨true, "v"⟩).2 =
      Except.error ("视频分离失败: " ++ "boom") :=
  ⟨(claim4_join_all_or_nothing "x" ⟨true, ""⟩ ⟨false, "boom"⟩
      ⟨true, "a"⟩ ⟨true, "v"⟩).2.1 rfl rfl,
    (claim4_join_all_or_nothing "x" ⟨true, ""⟩ ⟨false, "boom"⟩
      ⟨true, "a"⟩ ⟨true, "v"⟩).2.2.2 rfl rfl⟩

/-- C6 counterexample: the separation service performs no empty-payload
check — on an empty payload it still runs both tool invocations and,
when they succeed, answers with a 200 multipart response instead of an
`EmptyInput` 400 error. -/
theorem claim6_counterexample :
    separateMedia "" ⟨true, ""⟩ ⟨true, ""⟩ ⟨true, "abc"⟩ ⟨true, "vid"⟩ =
      ([SepStep.audioExtract, SepStep.videoExtract],
        Except.ok (multipartBody "abc" "vid")) := rfl

/-- C6 amended: only the audio-segment service rejects an empty payload
— it answers 400 with an error message and never reaches the tool
invocation — while the separation service runs both invocations
regardless of the payload. -/
theorem claim6_amended_empty_payload :
    (∀ (ranges : List (List ℤ)) (gapMs : ℤ),
      processAudio (some ranges) 0 gapMs =
        Outcome.clientError 400 "No audio data received") ∧
    (∀ (body : String) (aRes vRes : CmdResult) (aOut vOut : OutFile),
      (separateMedia body aRes vRes aOut vOut).1 =
        [SepStep.audioExtract, SepStep.videoExtract]) :=
  ⟨fun _ _ => rfl, fun _ _ _ _ _ => rfl⟩

/-- C7 counterexample: in the separation service an invocation that
reports success with an existing but empty output file does not fail
the request — the empty audio artifact is packaged and returned. -/
theorem claim7_counterexample :
    (⟨true, ""⟩ : CmdResult).success = true ∧
    (⟨true, ""⟩ : OutFile).data.length = 0 ∧
    (separateMedia "x" ⟨true, ""⟩ ⟨true, ""⟩ ⟨true, ""⟩ ⟨true, "vid"⟩).2 =
      Except.ok (multipartBody "" "vid") := ⟨rfl, rfl, rfl⟩

/-- C7 amended: the audio-segment orchestrator confirms the output both
exists and is non-empty — either defect fails the request even after a
reported success — but the separation orchestrator checks existence
only, so an existing empty output is returned as part of a successful
response. -/
theorem claim7_amended_output_checks :
    (∀ (res : CmdResult) (out : OutFile), res.success = true →
      (out.present = false ∨ out.data.length = 0) →
      ∃ msg, finishFfmpeg res out = Except.error msg) ∧
    (∀ (body : String) (aRes vRes : CmdResult) (aOut vOut : OutFile),
      aRes.success = true → vRes.success = true →
      aOut.present = true → vOut.present = true →
      (separateMedia body aRes vRes aOut vOut).2 =
        Except.ok (multipartBody aOut.data vOut.data)) := by
  constructor
  · rintro ⟨rs, rst⟩ ⟨op, od⟩ hs hbad
    dsimp only at hs
    subst hs
    rcases hbad with hp | hd
    · dsimp only at hp
      subst hp
      exact ⟨"output metadata unavailable", rfl⟩
    · dsimp only at hd
      cases op
      · exact ⟨"output metadata unavailable", rfl⟩
      · exact ⟨"FFmpeg produced empty output file",
          by simp [finishFfmpeg, hd]⟩
  · rintro body ⟨as, ast⟩ ⟨vs, vst⟩ ⟨ap, ad⟩ ⟨vp, vd⟩ ha hv hap hvp
    dsimp only at ha hv hap hvp
    subst ha; subst hv; subst hap; subst hvp
    rfl

/-- Witness for the amended C7 at concrete invocation results. -/
theorem claim7_amended_witness :
    (∃ msg, finishFfmpeg ⟨true, ""⟩ ⟨true, ""⟩ = Except.error msg) ∧
    (separateMedia "x" ⟨true, "s"⟩ ⟨true, "s"⟩ ⟨true, ""⟩ ⟨true, "v"⟩).2 =
      Except.ok (multipartBody "" "v") :=
  ⟨claim7_amended_output_checks.1 ⟨true, ""⟩ ⟨true, ""⟩ rfl (Or.inr rfl),
    claim7_amended_output_checks.2 "x" ⟨true, "s"⟩ ⟨true, "s"⟩
      ⟨true, ""⟩ ⟨true, "v"⟩ rfl rfl rfl rfl⟩

/-- C9: for every pair of output payloads the assembled response is a
multipart body with exactly two named parts — `audio` (content type
`audio/aac`, suggested filename `audio.aac`) first and `video`
(content type `video/mp4`, suggested filename `video.mp4`) second —
each part opened and terminated by the fixed boundary token and the
whole body closed by the terminal boundary. -/
theorem claim9_multipart_shape (audioData videoData : String) :
    multipartChunks audioData videoData =
      mkPartChunks boundary "audio" "audio.aac" "audio/aac" audioData ++
        mkPartChunks boundary "video" "video.mp4" "video/mp4" videoData ++
        closeBoundary boundary ∧
    multipartBody audioData videoData =
      String.join
        (mkPartChunks boundary "audio" "audio.aac" "audio/aac" audioData ++
          mkPartChunks boundary "video" "video.mp4" "video/mp4" videoData ++
          closeBoundary boundary) := ⟨rfl, rfl⟩

end Waveshift
